import Mathlib

/-!
Verification of the Vigilo connector core against its specification.

The Python sources under `src/vigilo/connector/` are embedded shallowly:

* `converttoxml.py` — the codec (`text2xml` and its helpers), including its
  exception behaviour (Python exceptions become `Except PyError`);
* `forwarder.py` — the active `PubSubForwarder.processQueue` send worker,
  `PubSubSender._send_failed`, `PubSubSender._accumulate_perf_msgs`,
  `PubSubSender.publishXml`, `PubSubForwarder.connectionLost` and
  `PubSubListener.chatReceived`;
* `handlers.py` — the active `BackupProvider` bounded in-memory queue.

Python 2 byte strings (`str`) are modelled as Lean `String`s whose characters
are the Latin-1 characters of the individual bytes, so the byte 0xE7 is the
character U+00E7 and the UTF-8 pair 0xC3 0xA7 is the two characters U+00C3
U+00A7.  `DbRetry` (the on-disk retry store, `store.py`) is not part of the
source snapshot; where its behaviour matters it is modelled from the spec
(section 4.2): a durable FIFO, `put` appends, `pop` removes the oldest entry.
-/

namespace Vigilo

/-- Model of `twisted.words.xish.domish.Element` trees: an element carries an
optional namespace URI, a name, attributes and an ordered list of children;
text content added by `addContent`/`addElement(content=...)` is a text node. -/
inductive XmlNode where
  | elem (ns : Option String) (name : String) (attrs : List (String × String))
      (children : List XmlNode)
  | text (s : String)

mutual

/-- Decidable equality on `XmlNode` (hand-written: nested inductive). -/
def XmlNode.decEq : (a b : XmlNode) → Decidable (a = b)
  | .text s, .text t =>
      if h : s = t then .isTrue (by subst h; rfl)
      else .isFalse (fun hh => by cases hh; exact h rfl)
  | .text _, .elem _ _ _ _ => .isFalse (fun hh => by cases hh)
  | .elem _ _ _ _, .text _ => .isFalse (fun hh => by cases hh)
  | .elem ns1 n1 a1 c1, .elem ns2 n2 a2 c2 =>
      if h1 : ns1 = ns2 then
        if h2 : n1 = n2 then
          if h3 : a1 = a2 then
            match XmlNode.decEqList c1 c2 with
            | .isTrue h4 => .isTrue (by subst h1 h2 h3 h4; rfl)
            | .isFalse h4 => .isFalse (fun hh => by cases hh; exact h4 rfl)
          else .isFalse (fun hh => by cases hh; exact h3 rfl)
        else .isFalse (fun hh => by cases hh; exact h2 rfl)
      else .isFalse (fun hh => by cases hh; exact h1 rfl)

/-- Decidable equality on lists of `XmlNode`. -/
def XmlNode.decEqList : (a b : List XmlNode) → Decidable (a = b)
  | [], [] => .isTrue rfl
  | [], _ :: _ => .isFalse (fun hh => by cases hh)
  | _ :: _, [] => .isFalse (fun hh => by cases hh)
  | x :: xs, y :: ys =>
      match XmlNode.decEq x y, XmlNode.decEqList xs ys with
      | .isTrue h1, .isTrue h2 => .isTrue (by subst h1 h2; rfl)
      | .isFalse h1, _ => .isFalse (fun hh => by cases hh; exact h1 rfl)
      | .isTrue _, .isFalse h2 => .isFalse (fun hh => by cases hh; exact h2 rfl)

end

instance : DecidableEq XmlNode := XmlNode.decEq

instance {ε α : Type} [DecidableEq ε] [DecidableEq α] : DecidableEq (Except ε α) :=
  fun a b =>
    match a, b with
    | .ok x, .ok y =>
        if h : x = y then .isTrue (by subst h; rfl)
        else .isFalse (fun hh => by cases hh; exact h rfl)
    | .error x, .error y =>
        if h : x = y then .isTrue (by subst h; rfl)
        else .isFalse (fun hh => by cases hh; exact h rfl)
    | .ok _, .error _ => .isFalse (fun hh => by cases hh)
    | .error _, .ok _ => .isFalse (fun hh => by cases hh)

/-- Element name (`msg.name` in domish); text nodes have no name. -/
def XmlNode.name : XmlNode → String
  | .elem _ n _ _ => n
  | .text _ => ""

/-- Whether a node is an element (domish `.elements()` yields only these). -/
def XmlNode.isElem : XmlNode → Bool
  | .elem _ _ _ _ => true
  | .text _ => false

/-- Child elements of a node, in order: domish `.elements()`. -/
def XmlNode.childElems : XmlNode → List XmlNode
  | .elem _ _ _ cs => cs.filter XmlNode.isElem
  | .text _ => []

/-- domish `Element.addChild`: appends a child (no-op on a text node, which
never happens in the embedded code paths). -/
def XmlNode.addChild : XmlNode → XmlNode → XmlNode
  | .elem ns n attrs cs, c => .elem ns n attrs (cs ++ [c])
  | .text s, _ => .text s

/-- Leaf child built by `msg.addElement(nm, content=s)`. -/
def childElem (nm s : String) : XmlNode := .elem none nm [] [.text s]

/-! ## Codec: `converttoxml.py` -/

def NS_AGGR : String := "http://www.projet-vigilo.org/xmlns/aggr1"
def NS_EVENT : String := "http://www.projet-vigilo.org/xmlns/event1"
def NS_PERF : String := "http://www.projet-vigilo.org/xmlns/perf1"
def NS_STATE : String := "http://www.projet-vigilo.org/xmlns/state1"
def NS_DOWNTIME : String := "http://www.projet-vigilo.org/xmlns/downtime1"
def NS_COMMAND : String := "http://www.projet-vigilo.org/xmlns/command1"
def MESSAGEONETOONE : String := "oneToOne"

/-- Python exceptions that matter to `text2xml`: the `try` block catches only
`TypeError` and `AttributeError`; an `IndexError` propagates to the caller. -/
inductive PyError where
  | indexError
  | typeError
  | attributeError
deriving DecidableEq, Repr

/-- Characters removed by Python `str.strip()`. -/
def isPySpace (c : Char) : Bool :=
  c = ' ' ∨ c = '\t' ∨ c = '\n' ∨ c = '\r' ∨ c = '\x0b' ∨ c = '\x0c'

/-- Python `str.strip()`: drop leading and trailing whitespace. -/
def pyStrip (cs : List Char) : List Char :=
  ((cs.dropWhile isPySpace).reverse.dropWhile isPySpace).reverse

/-- Python `str.split('|')`: always returns at least one group; the empty
string yields `[""]`. -/
def splitPipe : List Char → List (List Char)
  | [] => [[]]
  | c :: rest =>
    let r := splitPipe rest
    if c = '|' then [] :: r
    else
      match r with
      | g :: gs => (c :: g) :: gs
      | [] => [[c]]

/-- Python `'|'.join(l)`. -/
def joinPipe : List String → String
  | [] => ""
  | [s] => s
  | s :: rest => String.mk (s.data ++ '|' :: (joinPipe rest).data)

/-- `oneToOne2xml`: builds the envelope element with the `to` attribute, or
`None` when not given exactly two fields. -/
def oneToOne2xml (l : List String) : Option XmlNode :=
  if l.length ≠ 2 then none
  else some (.elem none MESSAGEONETOONE [("to", l.getD 1 "")] [])

/-- `event2xml`: an `event` element with five leaf children, or `None` when
the field count is wrong. -/
def event2xml (l : List String) : Option XmlNode :=
  if l.length ≠ 6 then none
  else some (.elem (some NS_EVENT) "event" []
    [childElem "timestamp" (l.getD 1 ""), childElem "host" (l.getD 2 ""),
     childElem "service" (l.getD 3 ""), childElem "state" (l.getD 4 ""),
     childElem "message" (l.getD 5 "")])

/-- `perf2xml`: a `perf` element with four leaf children, or `None` when the
field count is wrong. -/
def perf2xml (l : List String) : Option XmlNode :=
  if l.length ≠ 5 then none
  else some (.elem (some NS_PERF) "perf" []
    [childElem "timestamp" (l.getD 1 ""), childElem "host" (l.getD 2 ""),
     childElem "datasource" (l.getD 3 ""), childElem "value" (l.getD 4 "")])

/-- `downtime2xml`: a `downtime` element with six leaf children, or `None`
when the field count is wrong. -/
def downtime2xml (l : List String) : Option XmlNode :=
  if l.length ≠ 7 then none
  else some (.elem (some NS_DOWNTIME) "downtime" []
    [childElem "timestamp" (l.getD 1 ""), childElem "host" (l.getD 2 ""),
     childElem "service" (l.getD 3 ""), childElem "type" (l.getD 4 ""),
     childElem "author" (l.getD 5 ""), childElem "comment" (l.getD 6 "")])

/-- `text2xml`: splits the stripped line on `|`, optionally strips a
`oneToOne` envelope, dispatches on the kind tag.  The `command` branch reads
`elements[1]` unguarded, which raises `IndexError` when the line has no field
after the kind; the surrounding `except (TypeError, AttributeError)` does not
catch it.  Lines whose kind is unrecognized yield `None` (with a warning in
the source). -/
def text2xml (txt : String) : Except PyError (Option XmlNode) :=
  let elements0 := (splitPipe (pyStrip txt.data)).map String.mk
  let pair :=
    if 2 < elements0.length ∧ elements0.headD "" = MESSAGEONETOONE then
      (oneToOne2xml (elements0.take 2), elements0.drop 2)
    else ((none : Option XmlNode), elements0)
  let enveloppe := pair.1
  let elements := pair.2
  let msgE : Except PyError (Option XmlNode) :=
    if elements = [""] then .ok none
    else if elements.headD "" = "event" then .ok (event2xml elements)
    else if elements.headD "" = "perf" then .ok (perf2xml elements)
    else if elements.headD "" = "downtime" then .ok (downtime2xml elements)
    else if elements.headD "" = "command" then
      match elements.get? 1 with
      | none => .error .indexError
      | some ty =>
          .ok (some (.elem (some NS_COMMAND) "command" [("type", ty)]
            [.text (joinPipe (elements.drop 2))]))
    else .ok none
  match msgE with
  | .error e =>
      if e = .typeError ∨ e = .attributeError then .ok none else .error e
  | .ok msg =>
      match enveloppe with
      | some env =>
          match msg with
          | some m => .ok (some (env.addChild m))
          | none => .ok none
      | none => .ok msg

/-- The ISO-8859-15 test line of `test_text2xml.py`: bytes 0xE7 0xE8 0xE9
0xEA in the four text fields. -/
def isoLine : String := "event|1165939739|\xE7|\xE8|\xE9|\xEA"

/-- The UTF-8 equivalent line: each accented letter is the byte pair 0xC3
0xA7 … 0xC3 0xAA. -/
def utf8Line : String := "event|1165939739|\xC3\xA7|\xC3\xA8|\xC3\xA9|\xC3\xAA"

/-! ## Send worker: `PubSubForwarder.processQueue` (`forwarder.py`, active code)

The worker is an `inlineCallbacks` coroutine; its suspension points resolve
deterministically in this model (the bus connection state is fixed for the
duration of one run, `retry.pop`/`retry.put` resolve immediately, and replies
settle only in `waitForReplies`).  The RetryStore is seen through its FIFO
contents (spec section 4.2: `put` appends, `pop` removes the oldest entry);
messages are the already-serialized payloads.  `FwdResult.maxPending` is
instrumentation only: it records the peak length reached by
`_pending_replies` during the run. -/

/-- Outcome of one `processQueue` run. -/
structure FwdResult (α : Type) where
  retry : List α
  queue : List α
  pending : List α
  sent : List α
  maxPending : Nat
deriving DecidableEq

/-- Disconnected branch of `processQueue`: `while len(self.queue) > 0:
msg = self.queue.popleft(); yield self.retry.put(msg)`. -/
def drainToRetry {α : Type} : List α → List α → List α × List α
  | retry, [] => (retry, [])
  | retry, m :: rest => drainToRetry (retry ++ [m]) rest

/-- Message selection inside the main loop (`forwarder.py` lines 191-200):
`retry.pop()` first; only when it yields nothing is the in-memory queue
consulted; `IndexError` on an empty queue ends the loop.  Returns the
selected message and the remaining store and queue, or `none` when both are
empty. -/
def getNextMsg {α : Type} : List α → List α → Option (α × List α × List α)
  | m :: rest, queue => some (m, rest, queue)
  | [], m :: rest => some (m, [], rest)
  | [], [] => none

/-- Main loop of `processQueue` (lines 189-215).  `needsReply msg` tells
whether `processMessage msg` returned a Deferred (`None` means a push-only or
batched-away message: `continue`).  With `max_send_simult <= 1` the reply is
awaited inline; otherwise it is appended to `_pending_replies`, and when
`len(_pending_replies) >= max_send_simult` the loop breaks to listen for the
replies.  Every selected message is recorded in `sent` in selection order. -/
def processLoop {α : Type} (maxS : Nat) (needsReply : α → Bool) :
    List α → List α → List α → List α → Nat → FwdResult α
  | [], [], pending, sent, maxP => ⟨[], [], pending, sent, maxP⟩
  | m :: rest, queue, pending, sent, maxP =>
    if needsReply m then
      if maxS ≤ 1 then
        processLoop maxS needsReply rest queue pending (sent ++ [m]) maxP
      else
        let pending' := pending ++ [m]
        let maxP' := Nat.max maxP pending'.length
        if maxS ≤ pending'.length then ⟨rest, queue, pending', sent ++ [m], maxP'⟩
        else processLoop maxS needsReply rest queue pending' (sent ++ [m]) maxP'
    else
      processLoop maxS needsReply rest queue pending (sent ++ [m]) maxP
  | [], m :: rest, pending, sent, maxP =>
    if needsReply m then
      if maxS ≤ 1 then
        processLoop maxS needsReply [] rest pending (sent ++ [m]) maxP
      else
        let pending' := pending ++ [m]
        let maxP' := Nat.max maxP pending'.length
        if maxS ≤ pending'.length then ⟨[], rest, pending', sent ++ [m], maxP'⟩
        else processLoop maxS needsReply [] rest pending' (sent ++ [m]) maxP'
    else
      processLoop maxS needsReply [] rest pending (sent ++ [m]) maxP

/-- One run of `PubSubForwarder.processQueue` (lines 159-220).  When not
connected, the in-memory queue is drained into the RetryStore and nothing is
sent.  Otherwise, after the emptiness pre-check, the main loop runs; if any
replies are left pending afterwards, `waitForReplies` settles them all and
purges `_pending_replies`. -/
def processQueue {α : Type} (connected : Bool) (maxS : Nat) (needsReply : α → Bool)
    (retry queue pending : List α) : FwdResult α :=
  if connected = false then
    let rq := drainToRetry retry queue
    ⟨rq.1, rq.2, pending, [], pending.length⟩
  else if queue.length = 0 ∧ retry.length = 0 then
    ⟨retry, queue, pending, [], pending.length⟩
  else
    let r := processLoop maxS needsReply retry queue pending [] pending.length
    if r.pending.length ≠ 0 then { r with pending := [] } else r

/-! ## Failure handler: active `PubSubForwarder._send_failed`
(`forwarder.py` lines 140-147) -/

/-- Classification of a failed publish completion.  `notAcceptable` marks a
broker rejection whose condition is `not-acceptable`. -/
structure PyFailure where
  notAcceptable : Bool
deriving DecidableEq

/-- Active `_send_failed`: logs the error and, whenever a RetryStore is
configured, re-`put`s the payload — the failure's classification `e` is used
only in the log text, never to skip the re-put.  Returns the new RetryStore
contents (`none` when no store is configured). -/
def sendFailed (retry : Option (List String)) (e : PyFailure) (msg : String) :
    Option (List String) :=
  match retry with
  | none => none
  | some r => some (r ++ [msg])

/-! ## Bounded in-memory queue: active `BackupProvider`
(`handlers.py` lines 363-449) -/

/-- Python `collections.deque(maxlen=m).append`: when the deque already holds
`m` items, appending silently discards the leftmost (oldest) item. -/
def dequeAppend {α : Type} (maxlen : Option Nat) (q : List α) (x : α) : List α :=
  match maxlen with
  | none => q ++ [x]
  | some m =>
    let q' := q ++ [x]
    q'.drop (q'.length - m)

/-- State of a `BackupProvider` relevant to `write`.  `producerPaused` is
instrumentation: it records whether the provider ever asked its upstream
producer to pause. -/
structure BackupProvider where
  queue : List String
  maxQueueSize : Option Nat
  producerPaused : Bool
deriving DecidableEq

/-- Active `BackupProvider.write` (lines 447-449): `self.queue.append(data);
self.processQueue()`.  Only the queue is touched — the code contains no
pause/resume request toward the producer (that path exists only in the
commented-out variant), so `producerPaused` is left unchanged. -/
def BackupProvider.write (s : BackupProvider) (data : String) : BackupProvider :=
  { s with queue := dequeAppend s.maxQueueSize s.queue data }

/-! ## Connection loss: active `PubSubForwarder.connectionLost`
(`forwarder.py` lines 105-113), inherited unchanged by `PubSubSender` -/

/-- DbRetry store with its two in-memory buffers.  Modelled from the spec:
`store.py` is not in the source snapshot; spec section 4.2 says `buffer_out`
holds prefetched oldest rows, `buffer_in` coalesces fresh writes, and
`flush()` drains both buffers to disk. -/
structure DbRetry where
  disk : List String
  bufferIn : List String
  bufferOut : List String
deriving DecidableEq

/-- Modelled from the spec: `DbRetry.flush` drains both buffers to disk,
preserving FIFO order (prefetched `buffer_out` rows are the oldest). -/
def DbRetry.flush (s : DbRetry) : DbRetry :=
  ⟨s.bufferOut ++ s.disk ++ s.bufferIn, [], []⟩

/-- Everything the store currently holds, oldest first. -/
def DbRetry.contents (s : DbRetry) : List String :=
  s.bufferOut ++ s.disk ++ s.bufferIn

/-- Sender state relevant to `connectionLost`: the RetryStore and the pending
perf batch buffer `_batch_perf_queue`. -/
structure SenderLostState where
  retry : DbRetry
  batchPerfQueue : List String
deriving DecidableEq

/-- Active `connectionLost` (lines 105-113): logs, then `self.retry.flush()`.
The `_batch_perf_queue` is not touched and nothing from it is `put` into the
RetryStore. -/
def connectionLost (s : SenderLostState) : SenderLostState :=
  { s with retry := s.retry.flush }

/-! ## Perf batching: active `PubSubSender._accumulate_perf_msgs`
(`forwarder.py` lines 315-327) and unwrapping in `PubSubListener.chatReceived`
(lines 384-398) -/

/-- The `perfs` aggregate built when the batch buffer is full: a
`domish.Element((NS_PERF, "perfs"))` whose children are the buffered
messages in ingestion order. -/
def perfsWrap (msgs : List XmlNode) : XmlNode :=
  .elem (some NS_PERF) "perfs" [] msgs

/-- `_accumulate_perf_msgs`: non-`perf` messages (or `batch_send_perf <= 1`)
pass through; `perf` messages are buffered; when the buffer reaches
`batch_send_perf` a single `perfs` aggregate is emitted and the buffer is
cleared.  Returns the new buffer and the emitted message, if any. -/
def accumulatePerfMsgs (batchSendPerf : Nat) (buf : List XmlNode) (msg : XmlNode) :
    List XmlNode × Option XmlNode :=
  if batchSendPerf ≤ 1 ∨ msg.name ≠ "perf" then (buf, some msg)
  else
    let buf' := buf ++ [msg]
    if buf'.length < batchSendPerf then (buf', none)
    else ([], some (perfsWrap buf'))

/-- The accumulator folded over a sequence of ingested messages, returning
the final buffer and the per-message outputs in order. -/
def accumulateRun (batchSendPerf : Nat) :
    List XmlNode → List XmlNode → List XmlNode × List (Option XmlNode)
  | buf, [] => (buf, [])
  | buf, m :: ms =>
    let step := accumulatePerfMsgs batchSendPerf buf m
    let rest := accumulateRun batchSendPerf step.1 ms
    (rest.1, step.2 :: rest.2)

/-- Receiving side (`chatReceived`/`itemsReceived`): a `perfs` aggregate is
unwrapped and its child elements forwarded individually in order; any other
message is forwarded as is. -/
def unwrapReceived (data : XmlNode) : List XmlNode :=
  if data.name = "perfs" then data.childElems else [data]

/-! ## Publication: active `PubSubSender.publishXml`
(`forwarder.py` lines 351-370) -/

/-- What the Deferred returned by `publishXml` is. -/
inductive DeferredKind where
  | succeedTrue
  | eventualReply
  | failedNotConnected
deriving DecidableEq

/-- Observable effects of one `publishXml` call: the kind of Deferred
returned, the (node, payload) actually handed to `self.publish` if any, the
payloads the errback `_send_failed` re-`put` into the RetryStore, and whether
an error was logged. -/
structure PublishResult where
  deferred : DeferredKind
  published : Option (String × XmlNode)
  retryPut : List XmlNode
  loggedError : Bool
deriving DecidableEq

/-- Active `publishXml`: a kind with no entry in `_nodetopublish` is logged
and skipped, returning `defer.succeed(True)`.  Otherwise the message is
published; when the xml stream is gone (`AttributeError`), the Deferred
fails and the errback `_send_failed` stores the payload. -/
def publishXml (nodetopublish : List (String × String)) (connected : Bool)
    (xml : XmlNode) : PublishResult :=
  match nodetopublish.lookup xml.name with
  | none => ⟨.succeedTrue, none, [], true⟩
  | some node =>
    if connected then ⟨.eventualReply, some (node, xml), [], false⟩
    else ⟨.failedNotConnected, none, [xml], true⟩

/-- Three concrete perf messages for the batching witness. -/
def perfMsg1 : XmlNode :=
  .elem (some NS_PERF) "perf" []
    [childElem "timestamp" "1", childElem "host" "h1",
     childElem "datasource" "load", childElem "value" "0.1"]

/-- Second concrete perf message. -/
def perfMsg2 : XmlNode :=
  .elem (some NS_PERF) "perf" []
    [childElem "timestamp" "2", childElem "host" "h2",
     childElem "datasource" "load", childElem "value" "0.2"]

/-- Third concrete perf message. -/
def perfMsg3 : XmlNode :=
  .elem (some NS_PERF) "perf" []
    [childElem "timestamp" "3", childElem "host" "h3",
     childElem "datasource" "load", childElem "value" "0.3"]

/-! ## Helper lemmas -/

theorem drainToRetry_eq {α : Type} (queue : List α) :
    ∀ retry : List α, drainToRetry retry queue = (retry ++ queue, []) := by
  induction queue with
  | nil => intro retry; simp [drainToRetry]
  | cons m rest ih =>
    intro retry
    simp only [drainToRetry, ih (retry ++ [m]), List.append_assoc,
      List.singleton_append]

theorem processLoop_step {α : Type} (maxS : Nat) (f : α → Bool)
    (retry queue pending sent : List α) (maxP : Nat) (m : α) (r q : List α)
    (h : getNextMsg retry queue = some (m, r, q)) :
    processLoop maxS f retry queue pending sent maxP =
      (if f m then
        if maxS ≤ 1 then processLoop maxS f r q pending (sent ++ [m]) maxP
        else
          if maxS ≤ (pending ++ [m]).length then
            ⟨r, q, pending ++ [m], sent ++ [m],
              Nat.max maxP (pending ++ [m]).length⟩
          else processLoop maxS f r q (pending ++ [m]) (sent ++ [m])
            (Nat.max maxP (pending ++ [m]).length)
      else processLoop maxS f r q pending (sent ++ [m]) maxP) := by
  match retry, queue with
  | m2 :: rest, queue =>
    simp only [getNextMsg, Option.some.injEq, Prod.mk.injEq] at h
    obtain ⟨hm, hr, hq⟩ := h
    subst hm hr hq
    simp only [processLoop]
  | [], m2 :: rest =>
    simp only [getNextMsg, Option.some.injEq, Prod.mk.injEq] at h
    obtain ⟨hm, hr, hq⟩ := h
    subst hm hr hq
    simp only [processLoop]
  | [], [] => simp [getNextMsg] at h

theorem processLoop_sent_prefix {α : Type} (maxS : Nat) (f : α → Bool) :
    ∀ retry queue pending sent : List α, ∀ maxP : Nat, ∃ k,
      (processLoop maxS f retry queue pending sent maxP).sent =
        sent ++ (retry ++ queue).take k ∧
      (retry = [] ∧ queue = [] ∨ 0 < k) := by
  intro retry
  induction retry with
  | nil =>
    intro queue
    induction queue with
    | nil =>
      intro pending sent maxP
      exact ⟨0, by simp [processLoop], Or.inl ⟨rfl, rfl⟩⟩
    | cons m rest ih =>
      intro pending sent maxP
      simp only [processLoop, List.nil_append]
      split
      · split
        · obtain ⟨k, hk, _⟩ := ih pending (sent ++ [m]) maxP
          exact ⟨k + 1, by simp [hk, List.take_succ_cons],
            Or.inr (Nat.succ_pos k)⟩
        · split
          · exact ⟨1, by simp [List.take_succ_cons], Or.inr Nat.one_pos⟩
          · obtain ⟨k, hk, _⟩ := ih (pending ++ [m]) (sent ++ [m])
              (Nat.max maxP (pending.length + 1))
            exact ⟨k + 1, by simp [hk, List.take_succ_cons],
              Or.inr (Nat.succ_pos k)⟩
      · obtain ⟨k, hk, _⟩ := ih pending (sent ++ [m]) maxP
        exact ⟨k + 1, by simp [hk, List.take_succ_cons],
          Or.inr (Nat.succ_pos k)⟩
  | cons m rest ih =>
    intro queue pending sent maxP
    simp only [processLoop, List.cons_append]
    split
    · split
      · obtain ⟨k, hk, _⟩ := ih queue pending (sent ++ [m]) maxP
        exact ⟨k + 1, by simp [hk, List.take_succ_cons],
          Or.inr (Nat.succ_pos k)⟩
      · split
        · exact ⟨1, by simp [List.take_succ_cons], Or.inr Nat.one_pos⟩
        · obtain ⟨k, hk, _⟩ := ih queue (pending ++ [m]) (sent ++ [m])
            (Nat.max maxP (pending.length + 1))
          exact ⟨k + 1, by simp [hk, List.take_succ_cons],
            Or.inr (Nat.succ_pos k)⟩
    · obtain ⟨k, hk, _⟩ := ih queue pending (sent ++ [m]) maxP
      exact ⟨k + 1, by simp [hk, List.take_succ_cons],
        Or.inr (Nat.succ_pos k)⟩

theorem processLoop_maxPending_le {α : Type} (maxS : Nat) (f : α → Bool) :
    ∀ retry queue pending sent : List α, ∀ maxP : Nat, maxP ≤ maxS →
      (maxS ≤ 1 ∨ pending.length < maxS) →
      (processLoop maxS f retry queue pending sent maxP).maxPending ≤ maxS := by
  intro retry
  induction retry with
  | nil =>
    intro queue
    induction queue with
    | nil =>
      intro pending sent maxP h1 _h2
      simpa [processLoop] using h1
    | cons m rest ih =>
      intro pending sent maxP h1 h2
      simp only [processLoop]
      split
      · split
        · exact ih pending (sent ++ [m]) maxP h1 h2
        · rename_i hgt
          rcases h2 with h2 | h2
          · exact absurd h2 hgt
          · split
            · simp only
              have : pending.length + 1 ≤ maxS := h2
              simp [Nat.max_le, h1, List.length_append, this]
            · rename_i hlt
              apply ih
              · have : pending.length + 1 ≤ maxS := h2
                simp [Nat.max_le, h1, List.length_append, this]
              · right
                simpa [List.length_append] using Nat.lt_of_not_le hlt
      · exact ih pending (sent ++ [m]) maxP h1 h2
  | cons m rest ih =>
    intro queue pending sent maxP h1 h2
    simp only [processLoop]
    split
    · split
      · exact ih queue pending (sent ++ [m]) maxP h1 h2
      · rename_i hgt
        rcases h2 with h2 | h2
        · exact absurd h2 hgt
        · split
          · simp only
            have : pending.length + 1 ≤ maxS := h2
            simp [Nat.max_le, h1, List.length_append, this]
          · rename_i hlt
            apply ih
            · have : pending.length + 1 ≤ maxS := h2
              simp [Nat.max_le, h1, List.length_append, this]
            · right
              simpa [List.length_append] using Nat.lt_of_not_le hlt
    · exact ih queue pending (sent ++ [m]) maxP h1 h2

/-! ## Claim theorems -/

/-- C1: when the send worker runs while the connector is not connected to the
bus, it publishes nothing (`sent = []`) and moves every item of the in-memory
queue, in FIFO order, to the tail of the RetryStore, leaving the in-memory
queue empty when it returns. -/
theorem processQueue_disconnected_backs_up {α : Type} (maxS : Nat)
    (needsReply : α → Bool) (retry queue pending : List α) :
    processQueue false maxS needsReply retry queue pending =
      ⟨retry ++ queue, [], pending, [], pending.length⟩ := by
  simp [processQueue, drainToRetry_eq]

/-- C2: the send worker's selection always takes the RetryStore first — with
a non-empty store the selected message is exactly the store's oldest entry
(`getNextMsg`, which `processLoop` steps through, see `processLoop_step`) —
and over a whole connected run the sequence of messages handed to
`processMessage` is a non-empty prefix of RetryStore contents followed by
in-memory queue contents, so the store is drained fully before any new
in-memory item is sent. -/
theorem retryStore_priority {α : Type} (maxS : Nat) (needsReply : α → Bool)
    (m : α) (rs queue pending : List α) :
    getNextMsg (m :: rs) queue = some (m, rs, queue) ∧
    ∃ k, 0 < k ∧
      (processQueue true maxS needsReply (m :: rs) queue pending).sent =
        ((m :: rs) ++ queue).take k := by
  refine ⟨rfl, ?_⟩
  simp only [processQueue, if_neg (by simp : ¬(true = false)),
    List.length_cons]
  rw [if_neg (by simp)]
  obtain ⟨k, hk, hpos⟩ := processLoop_sent_prefix maxS needsReply (m :: rs)
    queue pending [] pending.length
  rcases hpos with ⟨h1, _⟩ | hpos
  · exact absurd h1 (List.cons_ne_nil m rs)
  refine ⟨k, hpos, ?_⟩
  split <;> simpa using hk

/-- C3: starting from an empty `_pending_replies`, the collection never holds
more than `max_send_simult` entries at any point of the run (its peak length
is bounded), and by the time the worker returns every pending reply has been
awaited and the collection has been emptied. -/
theorem pending_replies_bounded {α : Type} (maxS : Nat) (needsReply : α → Bool)
    (retry queue : List α) :
    (processQueue true maxS needsReply retry queue []).maxPending ≤ maxS ∧
    (processQueue true maxS needsReply retry queue []).pending = [] := by
  simp only [processQueue, if_neg (by simp : ¬(true = false))]
  split
  · simp
  · have hb := processLoop_maxPending_le maxS needsReply retry queue [] []
      (([] : List α).length) (by simp) (by
        rcases Nat.lt_or_ge 1 maxS with h | h
        · right; simpa using Nat.lt_of_lt_of_le Nat.zero_lt_one (Nat.le_of_lt h)
        · left; exact h)
    constructor
    · split <;> simpa using hb
    · split
      · rfl
      · rename_i hlen
        exact List.length_eq_zero.mp (Nat.eq_zero_of_not_pos
          (fun hpos => hlen (Nat.pos_iff_ne_zero.mp hpos)))

/-- C4: with `max_queue_size = 2` and the in-memory queue already full with
two messages, a further `BackupProvider.write` silently discards the oldest
queued message (`collections.deque(maxlen=...)` semantics) and never signals
the upstream producer to pause — there is no backpressure path in the active
`write`. -/
theorem write_full_queue_drops_oldest :
    (BackupProvider.write ⟨["m1", "m2"], some 2, false⟩ "m3").queue =
      ["m2", "m3"] ∧
    "m1" ∉ (BackupProvider.write ⟨["m1", "m2"], some 2, false⟩ "m3").queue ∧
    (BackupProvider.write ⟨["m1", "m2"], some 2, false⟩ "m3").producerPaused
      = false := by
  decide

/-- C5 counterexample: a publish failure classified as `not-acceptable` by
the broker is nevertheless re-`put` into the RetryStore by the active
`_send_failed` — the store does not stay unchanged as the claim states. -/
theorem sendFailed_notAcceptable_requeued :
    sendFailed (some []) ⟨true⟩ "badmsg" = some ["badmsg"] ∧
    sendFailed (some []) ⟨true⟩ "badmsg" ≠ some [] := by
  decide

/-- C5 (amended): every publish failure — including a broker rejection
classified as not acceptable — is logged and, whenever a RetryStore is
configured, re-`put`s the original payload at the tail of the store; with no
store configured nothing is stored. -/
theorem sendFailed_always_requeues (r : List String) (e : PyFailure)
    (msg : String) :
    sendFailed (some r) e msg = some (r ++ [msg]) ∧
    sendFailed none e msg = none :=
  ⟨rfl, rfl⟩

/-- C6: on `connectionLost`, a perf message still held in the pending batch
buffer `_batch_perf_queue` is NOT flushed into the RetryStore — the store's
contents stay empty while the message remains only in the volatile in-memory
buffer. -/
theorem connectionLost_leaves_batch_unpersisted :
    (connectionLost ⟨⟨[], [], []⟩, ["perfmsg"]⟩).retry.contents = [] ∧
    (connectionLost ⟨⟨[], [], []⟩, ["perfmsg"]⟩).batchPerfQueue =
      ["perfmsg"] := by
  decide

/-- C7: a bare `command` line with no field after the kind makes `text2xml`
raise an uncaught `IndexError` (the `except` clause catches only `TypeError`
and `AttributeError`), instead of returning none. -/
theorem text2xml_command_raises :
    text2xml "command" = .error .indexError := by
  decide

/-- C8: `text2xml` performs no character decoding at all, so the
ISO-8859-15 line and its UTF-8 equivalent parse to different elements, each
keeping its raw undecoded bytes — not to the same element as the claim (and
the repository's own test) requires. -/
theorem text2xml_no_encoding_fallback :
    text2xml isoLine =
      .ok (some (.elem (some NS_EVENT) "event" []
        [childElem "timestamp" "1165939739", childElem "host" "\xE7",
         childElem "service" "\xE8", childElem "state" "\xE9",
         childElem "message" "\xEA"])) ∧
    text2xml utf8Line =
      .ok (some (.elem (some NS_EVENT) "event" []
        [childElem "timestamp" "1165939739", childElem "host" "\xC3\xA7",
         childElem "service" "\xC3\xA8", childElem "state" "\xC3\xA9",
         childElem "message" "\xC3\xAA"])) ∧
    text2xml isoLine ≠ text2xml utf8Line := by
  refine ⟨by decide, by decide, by decide⟩

theorem accumulateRun_under (k : Nat) :
    ∀ msgs buf : List XmlNode, (∀ m ∈ msgs, XmlNode.name m = "perf") →
      1 < k → buf.length + msgs.length < k →
      accumulateRun k buf msgs = (buf ++ msgs, List.replicate msgs.length none) := by
  intro msgs
  induction msgs with
  | nil => intro buf _ _ _; simp [accumulateRun]
  | cons m ms ih =>
    intro buf hperf hk hlt
    have hm : XmlNode.name m = "perf" := hperf m (List.mem_cons_self m ms)
    have hstep : accumulatePerfMsgs k buf m = (buf ++ [m], none) := by
      simp only [accumulatePerfMsgs, hm]
      rw [if_neg (by simp [Nat.not_le.mpr hk]), if_pos (by
        simp only [List.length_append, List.length_singleton, List.length_nil]
        simp only [List.length_cons] at hlt
        omega)]
    have hrest := ih (buf ++ [m]) (fun x hx => hperf x (List.mem_cons_of_mem m hx))
      hk (by simp only [List.length_append, List.length_singleton, List.length_nil,
        List.length_cons] at hlt ⊢; omega)
    simp [accumulateRun, hstep, hrest, List.replicate_succ]

theorem accumulateRun_fills (k : Nat) :
    ∀ msgs buf : List XmlNode, (∀ m ∈ msgs, XmlNode.name m = "perf") →
      1 < k → buf.length + msgs.length = k → msgs ≠ [] →
      accumulateRun k buf msgs =
        ([], List.replicate (msgs.length - 1) none ++
          [some (perfsWrap (buf ++ msgs))]) := by
  intro msgs
  induction msgs with
  | nil => intro buf _ _ _ hne; exact absurd rfl hne
  | cons m ms ih =>
    intro buf hperf hk hlen _hne
    have hm : XmlNode.name m = "perf" := hperf m (List.mem_cons_self m ms)
    by_cases hms : ms = []
    · subst hms
      have hfull : (buf ++ [m]).length = k := by
        simp only [List.length_append, List.length_singleton, List.length_nil]
        simp only [List.length_cons, List.length_nil] at hlen
        omega
      have hstep : accumulatePerfMsgs k buf m =
          ([], some (perfsWrap (buf ++ [m]))) := by
        simp only [accumulatePerfMsgs, hm]
        rw [if_neg (by simp [Nat.not_le.mpr hk]),
          if_neg (by rw [hfull]; exact Nat.lt_irrefl k)]
      simp [accumulateRun, hstep]
    · have hmspos : 0 < ms.length := List.length_pos.mpr hms
      have hstep : accumulatePerfMsgs k buf m = (buf ++ [m], none) := by
        simp only [accumulatePerfMsgs, hm]
        rw [if_neg (by simp [Nat.not_le.mpr hk]), if_pos (by
          simp only [List.length_append, List.length_singleton, List.length_nil]
          simp only [List.length_cons] at hlen
          omega)]
      have hrest := ih (buf ++ [m])
        (fun x hx => hperf x (List.mem_cons_of_mem m hx)) hk
        (by
          simp only [List.length_append, List.length_singleton, List.length_nil]
          simp only [List.length_cons] at hlen
          omega) hms
      have hrep2 : List.replicate ms.length (none : Option XmlNode) =
          none :: List.replicate (ms.length - 1) none := by
        conv_lhs => rw [show ms.length = (ms.length - 1) + 1 from
          (Nat.succ_pred_eq_of_pos hmspos).symm]
        rw [List.replicate_succ]
      simp [accumulateRun, hstep, hrest, hrep2, List.append_assoc]

/-- C9: with `batch_send_perf = k > 1`, feeding k perf messages to the
accumulator starting from an empty batch buffer yields `none` for each of
the first k−1 messages and, on the k-th, a single `perfs` aggregate whose
children are exactly the k messages in ingestion order, with the buffer left
empty; the receiving side unwraps that aggregate back into the k original
messages in the same order. -/
theorem perf_batch_roundtrip (k : Nat) (msgs : List XmlNode) (hk : 1 < k)
    (hlen : msgs.length = k)
    (hperf : ∀ m ∈ msgs, XmlNode.name m = "perf" ∧ XmlNode.isElem m = true) :
    accumulateRun k [] msgs =
      ([], List.replicate (k - 1) none ++ [some (perfsWrap msgs)]) ∧
    unwrapReceived (perfsWrap msgs) = msgs := by
  constructor
  · have hne : msgs ≠ [] := by
      intro h
      subst h
      simp at hlen
      omega
    have := accumulateRun_fills k msgs [] (fun m hm => (hperf m hm).1) hk
      (by simpa using hlen) hne
    simpa [hlen] using this
  · simp only [unwrapReceived, perfsWrap, XmlNode.name, if_pos rfl,
      XmlNode.childElems]
    exact List.filter_eq_self.mpr (fun m hm => (hperf m hm).2)

/-- C9 witness: three concrete perf messages with `batch_send_perf = 3`. -/
theorem perf_batch_roundtrip_witness :
    accumulateRun 3 [] [perfMsg1, perfMsg2, perfMsg3] =
      ([], List.replicate 2 none ++
        [some (perfsWrap [perfMsg1, perfMsg2, perfMsg3])]) ∧
    unwrapReceived (perfsWrap [perfMsg1, perfMsg2, perfMsg3]) =
      [perfMsg1, perfMsg2, perfMsg3] :=
  perf_batch_roundtrip 3 [perfMsg1, perfMsg2, perfMsg3] (by decide) (by decide)
    (by decide)

/-- C10: a message whose kind has no entry in the configured publications
map is dropped by `publishXml`: nothing is handed to the bus, nothing is
stored in the RetryStore, an error is logged, and the returned Deferred
fires successfully with `True`. -/
theorem publishXml_unknown_kind_dropped (nodetopublish : List (String × String))
    (connected : Bool) (xml : XmlNode)
    (h : nodetopublish.lookup xml.name = none) :
    publishXml nodetopublish connected xml = ⟨.succeedTrue, none, [], true⟩ := by
  simp [publishXml, h]

/-- C10 witness: a `state` message with only `perf` configured. -/
theorem publishXml_unknown_kind_dropped_witness :
    publishXml [("perf", "perfnode")] true (.elem (some NS_STATE) "state" [] []) =
      ⟨.succeedTrue, none, [], true⟩ :=
  publishXml_unknown_kind_dropped [("perf", "perfnode")] true
    (.elem (some NS_STATE) "state" [] []) (by decide)

end Vigilo
